import Mathlib

/-
Verification development for the MISR processing core
(processing_core: reprojector, qa_filter, clipper, batch_processor).

Modelling conventions:
- A finite floating-point value is modelled as an exact rational; NaN is
  modelled as `none` in `F := Option Rat`.  All numpy comparisons with NaN
  are false, which `Fle` reproduces.
- A 2-D numpy array is modelled as a row-major flat list together with its
  shape (`Arr`).  Out-of-range reads yield the default element, which never
  happens on the shapes the pipeline produces.
- External collaborators (scipy griddata, rasterio mask/from_bounds pixel
  transforms, shapely intersects, geopandas to_crs, numpy cos, the file
  loader and the exporter) are parameters of the embedded functions; the
  theorems state their contracts as hypotheses.
-/

namespace Misr

/-- Model of a floating point value: `none` is NaN (or any missing value),
`some q` is a finite float taken as an exact rational. -/
abbrev F := Option ℚ

/-- NaN-propagating addition, as in numpy. -/
def Fadd : F → F → F
  | some a, some b => some (a + b)
  | _, _ => none

/-- NaN-propagating subtraction. -/
def Fsub : F → F → F
  | some a, some b => some (a - b)
  | _, _ => none

/-- NaN-propagating multiplication. -/
def Fmul : F → F → F
  | some a, some b => some (a * b)
  | _, _ => none

/-- numpy comparison `<=`: any comparison involving NaN is false. -/
def Fle : F → F → Bool
  | some a, some b => decide (a ≤ b)
  | _, _ => false

/-- NaN-propagating binary minimum (numpy `min` over data containing NaN
yields NaN). -/
def Fmin : F → F → F
  | some a, some b => some (min a b)
  | _, _ => none

/-- NaN-propagating binary maximum. -/
def Fmax : F → F → F
  | some a, some b => some (max a b)
  | _, _ => none

/-- `.min()` of a nonempty numpy array, NaN-propagating; `none` on the
empty list (numpy would raise there, a case never reached below). -/
def FminL : List F → F
  | [] => none
  | x :: xs => xs.foldl Fmin x

/-- `.max()` of a nonempty numpy array, NaN-propagating. -/
def FmaxL : List F → F
  | [] => none
  | x :: xs => xs.foldl Fmax x

/-- A 2-D array: shape plus row-major flat data. -/
structure Arr (α : Type) where
  rows : ℕ
  cols : ℕ
  flat : List α
deriving DecidableEq

/-- Element read `a[i, j]`, row-major. -/
def Arr.get {α : Type} [Inhabited α] (a : Arr α) (i j : ℕ) : α :=
  a.flat.getD (i * a.cols + j) default

/-- numpy slice `a[r0 : r1 + 1, c0 : c1 + 1]` (inclusive bounds as used by
`extract_subset`). -/
def Arr.slice {α : Type} [Inhabited α] (a : Arr α) (r0 r1 c0 c1 : ℕ) : Arr α :=
  ⟨r1 + 1 - r0, c1 + 1 - c0,
    (List.range ((r1 + 1 - r0) * (c1 + 1 - c0))).map fun k =>
      a.get (r0 + k / (c1 + 1 - c0)) (c0 + k % (c1 + 1 - c0))⟩

/- ===== qa_filter.py ===== -/

/-- A QA flag definition: either a single bit position or an inclusive bit
range, with the list of field values considered valid
(qa_filter.py QA_FLAGS / custom_flags entries). -/
inductive FlagDef : Type
  | bit (b : ℕ) (valid : List ℕ)
  | bitRange (lo hi : ℕ) (valid : List ℕ)
deriving DecidableEq

/-- The fixed catalog QAFilter.QA_FLAGS. -/
def QA_FLAGS : List (String × FlagDef) :=
  [("cloud_detected", .bit 0 [0]),
   ("clear_sky", .bit 1 [1]),
   ("high_quality", .bit 2 [1]),
   ("shadow_detected", .bit 3 [0]),
   ("snow_ice", .bit 4 [0, 1]),
   ("water_detected", .bit 5 [0, 1]),
   ("retrieval_quality", .bitRange 6 7 [0, 1, 2])]

/-- QAFilter.extract_bit_values: `(qa >> bit) & 1`. -/
def extract_bit_values (qa : ℕ) (bit_position : ℕ) : ℕ :=
  (qa >>> bit_position) &&& 1

/-- QAFilter.extract_bit_range: `(qa >> start) & ((1 << num_bits) - 1)`. -/
def extract_bit_range (qa : ℕ) (start_bit end_bit : ℕ) : ℕ :=
  (qa >>> start_bit) &&& ((1 <<< (end_bit - start_bit + 1)) - 1)

/-- Per-element validity of one flag: extract the bit field, test
membership in the valid-value list (qa_filter.py lines 97-108). -/
def flagMask (fd : FlagDef) (q : ℕ) : Bool :=
  match fd with
  | .bit b valid => decide (extract_bit_values q b ∈ valid)
  | .bitRange lo hi valid => decide (extract_bit_range q lo hi ∈ valid)

/-- Flag lookup: the fixed catalog first, then the custom catalog, as in
qa_filter.py lines 89-95 (unknown names are skipped by the caller). -/
def lookupFlag (custom : List (String × FlagDef)) (name : String) : Option FlagDef :=
  match QA_FLAGS.lookup name with
  | some fd => some fd
  | none => custom.lookup name

/-- QAFilter.create_quality_mask: all-valid when no filters are enabled,
otherwise the elementwise AND over every enabled, resolvable flag. -/
def create_quality_mask (enabled : List String) (custom : List (String × FlagDef))
    (qa : Arr ℕ) : Arr Bool :=
  if enabled = [] then ⟨qa.rows, qa.cols, qa.flat.map fun _ => true⟩
  else
    ⟨qa.rows, qa.cols,
      enabled.foldl
        (fun m name =>
          match lookupFlag custom name with
          | none => m
          | some fd => m.zipWith (fun b q => b && flagMask fd q) qa.flat)
        (qa.flat.map fun _ => true)⟩

/-- Masking step of QAFilter.apply_qa_filter (lines 140-147): pixels whose
mask entry is false become NaN. -/
def applyMask (enabled : List String) (custom : List (String × FlagDef))
    (data : Arr F) (qa : Arr ℕ) : Arr F :=
  ⟨data.rows, data.cols,
    List.zipWith (fun d b => if b then d else none) data.flat
      (create_quality_mask enabled custom qa).flat⟩

/-- QAFilter.apply_qa_filter: equal shapes filter directly; unequal shapes
with equal element counts reshape the QA array to the data shape and
filter; otherwise return the data unchanged (fail-open). -/
def apply_qa_filter (enabled : List String) (custom : List (String × FlagDef))
    (data : Arr F) (qa : Arr ℕ) : Arr F :=
  if qa.rows = data.rows ∧ qa.cols = data.cols then
    applyMask enabled custom data qa
  else if qa.flat.length = data.flat.length then
    applyMask enabled custom data ⟨data.rows, data.cols, qa.flat⟩
  else data

/- ===== reprojector.py ===== -/

/-- The per-cell membership test of Reprojector.find_region_bounds
(lines 38-43); numpy comparisons with NaN are false. -/
def inRegion (latg long : Arr F) (tla tlo m : ℚ) (i j : ℕ) : Bool :=
  Fle (some (tla - m)) (latg.get i j) && Fle (latg.get i j) (some (tla + m)) &&
  Fle (some (tlo - m)) (long.get i j) && Fle (long.get i j) (some (tlo + m))

/-- The list of qualifying (row, col) cells, in row-major order, as
produced by np.where over the membership grid. -/
def qualCells (latg long : Arr F) (tla tlo m : ℚ) : List (ℕ × ℕ) :=
  (List.range latg.rows).flatMap fun i =>
    (List.range latg.cols).filterMap fun j =>
      if inRegion latg long tla tlo m i j then some (i, j) else none

/-- Reprojector.find_region_bounds: `none` when no cell qualifies, else the
(min row, max row, min col, max col) rectangle over qualifying cells. -/
def find_region_bounds (latg long : Arr F) (tla tlo m : ℚ) :
    Option (ℕ × ℕ × ℕ × ℕ) :=
  match qualCells latg long tla tlo m with
  | [] => none
  | c :: cs =>
    some ((cs.map Prod.fst).foldl min c.1, (cs.map Prod.fst).foldl max c.1,
          (cs.map Prod.snd).foldl min c.2, (cs.map Prod.snd).foldl max c.2)

/-- The membership predicate in the words of the specification: both
coordinates present and within `margin` of the target in absolute value
(compared below with the two-sided test the code performs). -/
def specQualifies (latg long : Arr F) (tla tlo m : ℚ) (i j : ℕ) : Prop :=
  ∃ la lo : ℚ, latg.get i j = some la ∧ long.get i j = some lo ∧
    |la - tla| ≤ m ∧ |lo - tlo| ≤ m

/-- Reprojector.extract_subset: slice the coordinate grids by the bounds;
slice the value grid identically when its shape matches the coordinate
grids, else scale the bounds by the fixed integer scale factor. -/
def extract_subset (scale_factor : ℕ) (latg long red : Arr F)
    (bounds : ℕ × ℕ × ℕ × ℕ) : Arr F × Arr F × Arr F :=
  match bounds with
  | (r0, r1, c0, c1) =>
    (latg.slice r0 r1 c0 c1, long.slice r0 r1 c0 c1,
      if red.rows = latg.rows ∧ red.cols = latg.cols then red.slice r0 r1 c0 c1
      else red.slice (r0 * scale_factor) ((r1 + 1) * scale_factor - 1)
        (c0 * scale_factor) ((c1 + 1) * scale_factor - 1))

/-- np.linspace over possibly-NaN endpoints: `num` evenly spaced samples,
the last one exactly `stop` (numpy sets the endpoint explicitly). -/
def linspaceF (start stop : F) (num : ℕ) : List F :=
  (List.range num).map fun i =>
    if num ≤ 1 then start
    else if i = num - 1 then stop
    else Fadd start (Fmul (Fsub stop start) (some ((i : ℚ) / ((num : ℚ) - 1))))

/-- np.linspace over finite endpoints (used on geotransform coordinates in
clipper.py, which are always finite). -/
def linspaceQ (start stop : ℚ) (num : ℕ) : List ℚ :=
  (List.range num).map fun i =>
    if num ≤ 1 then start
    else if i = num - 1 then stop
    else start + (stop - start) * ((i : ℚ) / ((num : ℚ) - 1))

/-- Reprojector.create_fine_grid: 1-D linspace from the first to the last
corner of each coordinate subset across the value-array shape, then
meshgrid.  The fine latitude varies only with the row index and the fine
longitude only with the column index; the flat lists below are exactly the
row-major ravel of the two meshgrid outputs. -/
def create_fine_grid (latS lonS red : Arr F) : Arr F × Arr F :=
  let latCoords := linspaceF (latS.get 0 0) (latS.get (latS.rows - 1) (latS.cols - 1)) red.rows
  let lonCoords := linspaceF (lonS.get 0 0) (lonS.get (lonS.rows - 1) (lonS.cols - 1)) red.cols
  (⟨red.rows, red.cols,
      (List.range (red.rows * red.cols)).map fun k => latCoords.getD (k / red.cols) none⟩,
   ⟨red.rows, red.cols,
      (List.range (red.rows * red.cols)).map fun k => lonCoords.getD (k % red.cols) none⟩)

/-- Reprojector._calculate_native_resolution: latitude step 275 m in
degrees, longitude step further divided by the cosine of the center
latitude.  `cosd` is the external `np.cos(np.radians(.))`. -/
def calculate_native_resolution (cosd : ℚ → ℚ) (center_lat : ℚ) : ℚ × ℚ :=
  (275 / 111320, 275 / (111320 * cosd center_lat))

/-- np.arange(start, stop, step): `ceil((stop - start) / step)` samples
`start + i * step` (empty when the count is nonpositive). -/
def arangeQ (start stop step : ℚ) : List ℚ :=
  (List.range (Int.toNat ⌈(stop - start) / step⌉)).map fun i : ℕ =>
    start + (i : ℚ) * step

/-- The (lat, lon, value) triples whose value is not NaN, in row-major
order: reprojector.py lines 140-148 (valid_mask and the three fancy
indexings). -/
def valid_pts (latF lonF red : Arr F) : List (F × F × ℚ) :=
  (latF.flat.zip (lonF.flat.zip red.flat)).filterMap fun t =>
    match t.2.2 with
    | some v => some (t.1, t.2.1, v)
    | none => none

/-- The lat/lon bounding box of the valid points (lines 151-152), as numpy
computes it: NaN coordinates at valid pixels poison the min/max, modelled
by `none`. -/
def valid_bounds (latF lonF red : Arr F) : Option (ℚ × ℚ × ℚ × ℚ) :=
  let pts := valid_pts latF lonF red
  match FminL (pts.map fun t => t.1), FmaxL (pts.map fun t => t.1),
        FminL (pts.map fun t => t.2.1), FmaxL (pts.map fun t => t.2.1) with
  | some a, some b, some c, some d => some (a, b, c, d)
  | _, _, _, _ => none

/-- The regular output axes (lines 154-163): native resolution at the
center latitude, then np.arange over each bounding interval. -/
def reproj_axes (cosd : ℚ → ℚ) (b : ℚ × ℚ × ℚ × ℚ) : List ℚ × List ℚ :=
  let res := calculate_native_resolution cosd ((b.1 + b.2.1) / 2)
  (arangeQ b.1 (b.2.1 + res.1) res.1, arangeQ b.2.2.1 (b.2.2.2 + res.2) res.2)

/-- The source (lat, lon) scatter points handed to griddata; in every
reachable call all coordinates are finite, so the filterMap is the
identity extraction. -/
def source_pts (pts : List (F × F × ℚ)) : List (ℚ × ℚ) :=
  pts.filterMap fun t =>
    match t.1, t.2.1 with
    | some a, some b => some (a, b)
    | _, _ => none

/-- A reprojected regular grid: 1-D lat axis, 1-D lon axis, 2-D values
(the xr.Dataset built by Reprojector._create_dataset, metadata elided). -/
structure RGrid where
  lats : List ℚ
  lons : List ℚ
  arr : Arr F
deriving DecidableEq

/-- The flat interpolated output (line 174): scipy griddata is the
external parameter `gd`, applied to the valid scatter points and the
row-major ravel of the output meshgrid. -/
def gd_output (cosd : ℚ → ℚ)
    (gd : List (ℚ × ℚ) → List ℚ → List (ℚ × ℚ) → List F)
    (latF lonF red : Arr F) : List F :=
  match valid_bounds latF lonF red with
  | none => []
  | some b =>
    let ax := reproj_axes cosd b
    gd (source_pts (valid_pts latF lonF red))
      ((valid_pts latF lonF red).map fun t => t.2.2) (ax.1.product ax.2)

/-- Reprojector.reproject_to_wgs84.  Returns `Except.ok none` when no valid
input value exists or when the interpolated grid is entirely NaN; raises
(`Except.error`) when a NaN coordinate at a valid pixel poisons the output
bounds, which makes np.arange fail; otherwise returns the grid. -/
def reproject_to_wgs84 (cosd : ℚ → ℚ)
    (gd : List (ℚ × ℚ) → List ℚ → List (ℚ × ℚ) → List F)
    (latF lonF red : Arr F) : Except String (Option RGrid) :=
  if (valid_pts latF lonF red).length = 0 then Except.ok none
  else
    match valid_bounds latF lonF red with
    | none => Except.error "cannot convert float NaN to integer"
    | some b =>
      let ax := reproj_axes cosd b
      let out := gd (source_pts (valid_pts latF lonF red))
        ((valid_pts latF lonF red).map fun t => t.2.2) (ax.1.product ax.2)
      if out.all (fun v => v.isNone) then Except.ok none
      else Except.ok (some ⟨ax.1, ax.2, ⟨ax.1.length, ax.2.length, out⟩⟩)

/- ===== clipper.py ===== -/

/-- `.min()` of a nonempty list of finite floats (dataset axes are always
finite); 0 on the empty list, a case the claims never reach. -/
def minD : List ℚ → ℚ
  | [] => 0
  | x :: xs => xs.foldl min x

/-- `.max()` of a nonempty list of finite floats. -/
def maxD : List ℚ → ℚ
  | [] => 0
  | x :: xs => xs.foldl max x

/-- The affine geotransform coefficients rasterio uses: `a` column step,
`c` west edge, `e` row step (negative for north-up), `f` north edge. -/
structure GeoTransform where
  a : ℚ
  c : ℚ
  e : ℚ
  f : ℚ
deriving DecidableEq

/-- rasterio.transform.from_bounds: pixel steps from the bounds and the
raster shape; the row step is `(south - north) / height`, negative for a
non-degenerate extent. -/
def from_bounds (west south east north : ℚ) (width height : ℕ) : GeoTransform :=
  ⟨(east - west) / width, west, (south - north) / height, north⟩

/-- The result of the external rasterio.mask.mask call with crop=True:
cropped shape, cropped flat data, and the cropped geotransform.  rasterio
preserves the pixel steps `a` and `e` of the source transform. -/
structure MaskResult where
  height : ℕ
  width : ℕ
  flat : List F
  t : GeoTransform

/-- Clipper.clip_xarray_dataset (lines 88-171): build the geotransform from
the axis bounds, call the external mask (`maskC`), fail on an empty crop,
and rebuild the axes from the cropped geotransform with np.linspace: lon
from `c` to `c + width * a`, lat from `f` to `f + height * e`. -/
def clip_xarray_dataset (maskC : GeoTransform → Arr F → MaskResult)
    (lats lons : List ℚ) (data : Arr F) : Except String RGrid :=
  let t := from_bounds (minD lons) (minD lats) (maxD lons) (maxD lats) data.cols data.rows
  let m := maskC t data
  if m.height * m.width = 0 then Except.error "Clipping resulted in empty dataset"
  else
    Except.ok ⟨linspaceQ m.t.f (m.t.f + (m.height : ℚ) * m.t.e) m.height,
               linspaceQ m.t.c (m.t.c + (m.width : ℚ) * m.t.a) m.width,
               ⟨m.height, m.width, m.flat⟩⟩

/-- An axis-aligned bounding box, as shapely.geometry.box builds it. -/
structure BoxQ where
  minx : ℚ
  miny : ℚ
  maxx : ℚ
  maxy : ℚ
deriving DecidableEq

/-- Membership of a point in a closed box (the point set of a shapely
box polygon). -/
def inBoxQ (b : BoxQ) (p : ℚ × ℚ) : Prop :=
  b.minx ≤ p.1 ∧ p.1 ≤ b.maxx ∧ b.miny ≤ p.2 ∧ p.2 ≤ b.maxy

/-- The dataset bounding box of Clipper.check_overlap (line 208):
box(lons.min, lats.min, lons.max, lats.max). -/
def datasetBox (lats lons : List ℚ) : BoxQ :=
  ⟨minD lons, minD lats, maxD lons, maxD lats⟩

/-- The geometry loop of Clipper.check_overlap (lines 218-222): first
intersecting geometry wins; each external intersects call may raise. -/
def anyIntersects {G : Type} (intersects : G → BoxQ → Except String Bool) :
    List G → BoxQ → Except String Bool
  | [], _ => Except.ok false
  | g :: gs, b => do
    let r ← intersects g b
    if r then Except.ok true else anyIntersects intersects gs b

/-- Clipper.check_overlap: `false` when no geometries are loaded; otherwise
reproject the geometries (external, may raise) and test each against the
dataset box; any raised error yields `true` (fail-open). -/
def check_overlap {G : Type} (reprojGeoms : List G → Except String (List G))
    (intersects : G → BoxQ → Except String Bool)
    (geoms : Option (List G)) (lats lons : List ℚ) : Bool :=
  match geoms with
  | none => false
  | some gs =>
    match (do
        let gs2 ← reprojGeoms gs
        anyIntersects intersects gs2 (datasetBox lats lons) : Except String Bool) with
    | Except.ok b => b
    | Except.error _ => true

/- ===== batch_processor.py ===== -/

/-- The configuration fields of ProcessingConfig that the embedded
pipeline control flow reads. -/
structure ProcessingConfig where
  target_lat : ℚ
  target_lon : ℚ
  region_margin : ℚ
  scale_factor : ℕ
  enable_qa_filtering : Bool
  enable_clipping : Bool
  export_netcdf : Bool
  export_geotiff : Bool
  validate_inputs : Bool

/-- The external library primitives the pipeline calls: numpy cos of
radians, scipy griddata, geopandas reprojection, shapely intersects, and
rasterio mask. -/
structure Libs (G : Type) where
  cosd : ℚ → ℚ
  gd : List (ℚ × ℚ) → List ℚ → List (ℚ × ℚ) → List F
  reprojGeoms : List G → Except String (List G)
  intersects : G → BoxQ → Except String Bool
  maskC : GeoTransform → Arr F → MaskResult

/-- The per-file external collaborator outcomes: each loader and exporter
call either yields a value or raises.  A fault at any pipeline state is a
choice of error in one of these fields. -/
structure FileEnv where
  openLoader : Except String Unit
  validateFile : Except String (List (String × String))
  getLatLonGrids : Except String (Arr F × Arr F)
  getRedRadiance : Except String (Arr F)
  loadQaData : Except String (Option Unit)
  exportNetcdfPath : Except String String
  exportGeotiffPath : Except String String

/-- The body of the try block of BatchProcessor.process_single_file
(batch_processor.py lines 98-213): load, find bounds (raising when none),
extract, build the fine grid, optionally touch QA data, reproject (raising
when empty), optionally clip after the overlap check, then export. -/
def runPipeline {G : Type} (cfg : ProcessingConfig) (libs : Libs G)
    (geoms : Option (List G)) (env : FileEnv) :
    Except String (List (String × String) × List (String × Bool)) := do
  env.openLoader
  let _meta ← if cfg.validate_inputs then env.validateFile else Except.ok []
  let grids ← env.getLatLonGrids
  let bounds ← match find_region_bounds grids.1 grids.2 cfg.target_lat
      cfg.target_lon cfg.region_margin with
    | none => Except.error "No data found in target region"
    | some b => Except.ok b
  let red ← env.getRedRadiance
  let subs := extract_subset cfg.scale_factor grids.1 grids.2 red bounds
  let fine := create_fine_grid subs.1 subs.2.1 subs.2.2
  let _qa ← if cfg.enable_qa_filtering then env.loadQaData else Except.ok none
  let dsOpt ← reproject_to_wgs84 libs.cosd libs.gd fine.1 fine.2 subs.2.2
  let ds ← match dsOpt with
    | none => Except.error "Reprojection failed - no valid data"
    | some d => Except.ok d
  let clipped ← match geoms with
    | some gs =>
      if cfg.enable_clipping && !gs.isEmpty then
        if check_overlap libs.reprojGeoms libs.intersects (some gs) ds.lats ds.lons then
          (clip_xarray_dataset libs.maskC ds.lats ds.lons ds.arr).map
            (fun c => (c, [("clipped", true)]))
        else Except.ok (ds, [("clipped", false)])
      else Except.ok (ds, [])
    | none => Except.ok (ds, [])
  let _final := clipped.1
  let nc ← if cfg.export_netcdf then
      (env.exportNetcdfPath).map (fun p => [("netcdf", p)])
    else Except.ok []
  let tf ← if cfg.export_geotiff then
      (env.exportGeotiffPath).map (fun p => [("geotiff", p)])
    else Except.ok []
  Except.ok (nc ++ tf, clipped.2)

/-- The fields of ProcessingResult the claims read (timing elided). -/
structure ProcessingResult where
  input_file : String
  success : Bool
  output_files : List (String × String)
  error_message : Option String
deriving DecidableEq

/-- BatchProcessor.process_single_file: run the pipeline, catch every
raised fault and convert it into a failed result with a populated
message (lines 214-224). -/
def process_single_file {G : Type} (cfg : ProcessingConfig) (libs : Libs G)
    (geoms : Option (List G)) (env : FileEnv) (filepath : String) :
    ProcessingResult :=
  match runPipeline cfg libs geoms env with
  | Except.ok r => ⟨filepath, true, r.1, none⟩
  | Except.error e => ⟨filepath, false, [], some ("Processing failed: " ++ e)⟩

/-- BatchProcessor.process_batch: one result per input path, strictly in
input order (lines 226-267); `envOf` gives each path its collaborator
outcomes. -/
def process_batch {G : Type} (cfg : ProcessingConfig) (libs : Libs G)
    (geoms : Option (List G)) (envOf : String → FileEnv)
    (filepaths : List String) : List ProcessingResult :=
  filepaths.map fun fp => process_single_file cfg libs geoms (envOf fp) fp

/- ===== shared helper lemmas ===== -/

theorem zipWith_and_map_true (f : ℕ → Bool) (l : List ℕ) :
    List.zipWith (fun b q => b && f q) (l.map fun _ => true) l = l.map f := by
  induction l with
  | nil => rfl
  | cons x xs ih => simp only [List.map_cons, List.zipWith_cons_cons, Bool.true_and, ih]

theorem create_quality_mask_length (enabled : List String)
    (custom : List (String × FlagDef)) (qa : Arr ℕ) :
    (create_quality_mask enabled custom qa).flat.length = qa.flat.length := by
  have step : ∀ (l : List String) (m : List Bool),
      m.length = qa.flat.length →
      (l.foldl (fun m name =>
        match lookupFlag custom name with
        | none => m
        | some fd => m.zipWith (fun b q => b && flagMask fd q) qa.flat) m).length =
        qa.flat.length := by
    intro l
    induction l with
    | nil => intro m hm; exact hm
    | cons x xs ih =>
      intro m hm
      apply ih
      cases h : lookupFlag custom x with
      | none => simpa [h] using hm
      | some fd => simp [h, List.length_zipWith, hm]
  unfold create_quality_mask
  split
  · simp
  · exact step enabled _ (by simp)

theorem getD_zipWith_mask (l1 : List F) (l2 : List Bool) (k : ℕ)
    (hk : k < l1.length) (hlen : l2.length = l1.length) :
    (List.zipWith (fun d b => if b then d else none) l1 l2).getD k none =
      if l2.getD k false then l1.getD k none else none := by
  induction l1 generalizing l2 k with
  | nil => simp at hk
  | cons a l ih =>
    cases l2 with
    | nil => simp at hlen
    | cons b t =>
      cases k with
      | zero => simp
      | succ n =>
        simp only [List.zipWith_cons_cons, List.getD_cons_succ]
        exact ih t n (by simpa using hk) (by simpa using hlen)

theorem anyIntersects_sem {G : Type} (intersects : G → BoxQ → Except String Bool)
    (box : BoxQ) (Sem : G → Prop) :
    ∀ gs : List G,
      (∀ g ∈ gs, ∃ b, intersects g box = Except.ok b ∧ (b = true ↔ Sem g)) →
      ∃ r, anyIntersects intersects gs box = Except.ok r ∧
        (r = true ↔ ∃ g ∈ gs, Sem g) := by
  intro gs
  induction gs with
  | nil => exact fun _ => ⟨false, rfl, by simp⟩
  | cons g t ih =>
    intro h
    obtain ⟨b, hb, hsem⟩ := h g (List.mem_cons_self g t)
    obtain ⟨r, hr, hrsem⟩ := ih fun x hx => h x (List.mem_cons_of_mem g hx)
    cases b with
    | true =>
      refine ⟨true, by simp only [anyIntersects, hb]; rfl, ?_⟩
      constructor
      · exact fun _ => ⟨g, List.mem_cons_self g t, hsem.mp rfl⟩
      · exact fun _ => rfl
    | false =>
      refine ⟨r, by simp only [anyIntersects, hb, hr]; rfl, ?_⟩
      rw [hrsem]
      constructor
      · exact fun ⟨x, hx, hs⟩ => ⟨x, List.mem_cons_of_mem g hx, hs⟩
      · rintro ⟨x, hx, hs⟩
        rcases List.mem_cons.1 hx with rfl | hx2
        · exact absurd (hsem.mpr hs) (by simp)
        · exact ⟨x, hx2, hs⟩

theorem getD_map_range {α : Type} (n k : ℕ) (f : ℕ → α) (d : α) :
    ((List.range n).map f).getD k d = if k < n then f k else d := by
  by_cases h : k < n
  · rw [List.getD_eq_getElem?_getD, List.getElem?_map, List.getElem?_range h]
    simp [h]
  · rw [List.getD_eq_getElem?_getD, List.getElem?_map,
      List.getElem?_eq_none (by simpa using Nat.le_of_not_lt h)]
    simp [h]

theorem rowmajor_lt (i j r c : ℕ) (hi : i < r) (hj : j < c) :
    i * c + j < r * c :=
  calc i * c + j < i * c + c := by omega
  _ = (i + 1) * c := by ring
  _ ≤ r * c := Nat.mul_le_mul_right c (Nat.succ_le_of_lt hi)

theorem fine_grid_get (latS lonS red : Arr F) (i j : ℕ)
    (hi : i < red.rows) (hj : j < red.cols) :
    (create_fine_grid latS lonS red).1.get i j =
      (linspaceF (latS.get 0 0) (latS.get (latS.rows - 1) (latS.cols - 1))
        red.rows).getD i none ∧
    (create_fine_grid latS lonS red).2.get i j =
      (linspaceF (lonS.get 0 0) (lonS.get (lonS.rows - 1) (lonS.cols - 1))
        red.cols).getD j none := by
  have hc : 0 < red.cols := by omega
  have hk : i * red.cols + j < red.rows * red.cols := rowmajor_lt i j _ _ hi hj
  have hdiv : (i * red.cols + j) / red.cols = i := by
    rw [Nat.add_comm, Nat.mul_comm, Nat.add_mul_div_left j i hc,
      Nat.div_eq_of_lt hj, Nat.zero_add]
  have hmod : (i * red.cols + j) % red.cols = j := by
    rw [Nat.add_comm, Nat.mul_comm, Nat.add_mul_mod_self_left, Nat.mod_eq_of_lt hj]
  constructor
  · show (((List.range (red.rows * red.cols)).map fun k =>
        (linspaceF _ _ red.rows).getD (k / red.cols) none)).getD
        (i * red.cols + j) none = _
    rw [getD_map_range, if_pos hk, hdiv]
  · show (((List.range (red.rows * red.cols)).map fun k =>
        (linspaceF _ _ red.cols).getD (k % red.cols) none)).getD
        (i * red.cols + j) none = _
    rw [getD_map_range, if_pos hk, hmod]

theorem linspaceF_head (start stop : F) (num : ℕ) (h1 : 1 ≤ num)
    (hs : start.isSome) (ht : stop.isSome) :
    (linspaceF start stop num).getD 0 none = start := by
  obtain ⟨a, rfl⟩ := Option.isSome_iff_exists.mp hs
  obtain ⟨b, rfl⟩ := Option.isSome_iff_exists.mp ht
  rw [linspaceF, getD_map_range, if_pos (by omega : 0 < num)]
  by_cases h : num ≤ 1
  · simp [h]
  · have h2 : ¬(0 = num - 1) := by omega
    simp [h, h2, Fadd, Fsub, Fmul]

theorem linspaceF_last (start stop : F) (num : ℕ) (h2 : 2 ≤ num) :
    (linspaceF start stop num).getD (num - 1) none = stop := by
  rw [linspaceF, getD_map_range, if_pos (by omega : num - 1 < num)]
  have h : ¬(num ≤ 1) := by omega
  simp [h]

theorem foldl_min_le_self (l : List ℕ) (a : ℕ) : l.foldl min a ≤ a := by
  induction l generalizing a with
  | nil => exact Nat.le_refl a
  | cons x xs ih => exact Nat.le_trans (ih (min a x)) (Nat.min_le_left a x)

theorem foldl_min_le_mem (l : List ℕ) (a x : ℕ) (hx : x ∈ l) :
    l.foldl min a ≤ x := by
  induction l generalizing a with
  | nil => simp at hx
  | cons y ys ih =>
    rcases List.mem_cons.1 hx with rfl | hx2
    · exact Nat.le_trans (foldl_min_le_self ys (min a x)) (Nat.min_le_right a x)
    · exact ih (min a y) hx2

theorem foldl_min_mem (l : List ℕ) (a : ℕ) :
    l.foldl min a = a ∨ l.foldl min a ∈ l := by
  induction l generalizing a with
  | nil => exact Or.inl rfl
  | cons x xs ih =>
    rcases ih (min a x) with h | h
    · rcases min_choice a x with hm | hm
      · exact Or.inl (by rw [List.foldl_cons, h, hm])
      · exact Or.inr (by rw [List.foldl_cons, h, hm]; exact List.mem_cons_self x xs)
    · exact Or.inr (List.mem_cons_of_mem x h)

theorem le_foldl_max_self (l : List ℕ) (a : ℕ) : a ≤ l.foldl max a := by
  induction l generalizing a with
  | nil => exact Nat.le_refl a
  | cons x xs ih => exact Nat.le_trans (Nat.le_max_left a x) (ih (max a x))

theorem le_foldl_max_mem (l : List ℕ) (a x : ℕ) (hx : x ∈ l) :
    x ≤ l.foldl max a := by
  induction l generalizing a with
  | nil => simp at hx
  | cons y ys ih =>
    rcases List.mem_cons.1 hx with rfl | hx2
    · exact Nat.le_trans (Nat.le_max_right a x) (le_foldl_max_self ys (max a x))
    · exact ih (max a y) hx2

theorem foldl_max_mem (l : List ℕ) (a : ℕ) :
    l.foldl max a = a ∨ l.foldl max a ∈ l := by
  induction l generalizing a with
  | nil => exact Or.inl rfl
  | cons x xs ih =>
    rcases ih (max a x) with h | h
    · rcases max_choice a x with hm | hm
      · exact Or.inl (by rw [List.foldl_cons, h, hm])
      · exact Or.inr (by rw [List.foldl_cons, h, hm]; exact List.mem_cons_self x xs)
    · exact Or.inr (List.mem_cons_of_mem x h)

theorem mem_qualCells (latg long : Arr F) (tla tlo m : ℚ) (i j : ℕ) :
    (i, j) ∈ qualCells latg long tla tlo m ↔
      i < latg.rows ∧ j < latg.cols ∧
        inRegion latg long tla tlo m i j = true := by
  constructor
  · intro h
    obtain ⟨a, ha, h2⟩ := List.mem_flatMap.1 h
    obtain ⟨b, hb, h3⟩ := List.mem_filterMap.1 h2
    by_cases hr : inRegion latg long tla tlo m a b
    · rw [if_pos hr] at h3
      obtain ⟨rfl, rfl⟩ := Prod.mk.injEq .. ▸ Option.some.inj h3
      exact ⟨List.mem_range.1 ha, List.mem_range.1 hb, hr⟩
    · rw [if_neg hr] at h3
      exact absurd h3 (by simp)
  · rintro ⟨hi, hj, hr⟩
    exact List.mem_flatMap.2 ⟨i, List.mem_range.2 hi,
      List.mem_filterMap.2 ⟨j, List.mem_range.2 hj, by rw [if_pos hr]⟩⟩

theorem inRegion_iff_spec (latg long : Arr F) (tla tlo m : ℚ) (i j : ℕ) :
    inRegion latg long tla tlo m i j = true ↔
      specQualifies latg long tla tlo m i j := by
  unfold inRegion specQualifies
  cases hla : latg.get i j with
  | none => simp [Fle]
  | some la =>
    cases hlo : long.get i j with
    | none => simp [Fle]
    | some lo =>
      simp only [Fle, Bool.and_eq_true, decide_eq_true_eq,
        Option.some.injEq]
      constructor
      · rintro ⟨⟨⟨h1, h2⟩, h3⟩, h4⟩
        exact ⟨la, lo, rfl, rfl, abs_sub_le_iff.2 ⟨by linarith, by linarith⟩,
          abs_sub_le_iff.2 ⟨by linarith, by linarith⟩⟩
      · rintro ⟨la2, lo2, hla2, hlo2, h1, h2⟩
        obtain rfl : la2 = la := hla2.symm
        obtain rfl : lo2 = lo := hlo2.symm
        obtain ⟨h1a, h1b⟩ := abs_sub_le_iff.1 h1
        obtain ⟨h2a, h2b⟩ := abs_sub_le_iff.1 h2
        exact ⟨⟨⟨by linarith, by linarith⟩, by linarith⟩, by linarith⟩

theorem valid_pts_nil_iff (A B C : List F)
    (h1 : A.length = C.length) (h2 : B.length = C.length) :
    ((A.zip (B.zip C)).filterMap fun t =>
      match t.2.2 with
      | some v => some (t.1, t.2.1, v)
      | none => none) = [] ↔ ∀ v ∈ C, v = none := by
  induction C generalizing A B with
  | nil => simp
  | cons c ct ih =>
    cases A with
    | nil => simp at h1
    | cons a at2 =>
      cases B with
      | nil => simp at h2
      | cons b bt =>
        cases c with
        | some v =>
          constructor
          · intro h
            simp [List.zip_cons_cons, List.filterMap_cons] at h
          · intro h
            exact absurd (h (some v) (List.mem_cons_self _ _)) (by simp)
        | none =>
          simp only [List.zip_cons_cons, List.filterMap_cons]
          rw [ih at2 bt (by simpa using h1) (by simpa using h2)]
          constructor
          · intro h v hv
            rcases List.mem_cons.1 hv with rfl | hv2
            · rfl
            · exact h v hv2
          · intro h v hv
            exact h v (List.mem_cons_of_mem _ hv)

theorem foldl_Fmin_isSome (l : List F) (a : F) (ha : a.isSome)
    (h : ∀ x ∈ l, x.isSome) : (l.foldl Fmin a).isSome := by
  induction l generalizing a with
  | nil => exact ha
  | cons x xs ih =>
    apply ih
    · obtain ⟨q, rfl⟩ := Option.isSome_iff_exists.mp ha
      obtain ⟨r, hr⟩ := Option.isSome_iff_exists.mp (h x (List.mem_cons_self x xs))
      rw [hr]
      rfl
    · exact fun y hy => h y (List.mem_cons_of_mem x hy)

theorem foldl_Fmax_isSome (l : List F) (a : F) (ha : a.isSome)
    (h : ∀ x ∈ l, x.isSome) : (l.foldl Fmax a).isSome := by
  induction l generalizing a with
  | nil => exact ha
  | cons x xs ih =>
    apply ih
    · obtain ⟨q, rfl⟩ := Option.isSome_iff_exists.mp ha
      obtain ⟨r, hr⟩ := Option.isSome_iff_exists.mp (h x (List.mem_cons_self x xs))
      rw [hr]
      rfl
    · exact fun y hy => h y (List.mem_cons_of_mem x hy)

theorem FminL_isSome (l : List F) (hne : l ≠ []) (h : ∀ x ∈ l, x.isSome) :
    (FminL l).isSome := by
  cases l with
  | nil => exact absurd rfl hne
  | cons x xs =>
    exact foldl_Fmin_isSome xs x (h x (List.mem_cons_self x xs))
      fun y hy => h y (List.mem_cons_of_mem x hy)

theorem FmaxL_isSome (l : List F) (hne : l ≠ []) (h : ∀ x ∈ l, x.isSome) :
    (FmaxL l).isSome := by
  cases l with
  | nil => exact absurd rfl hne
  | cons x xs =>
    exact foldl_Fmax_isSome xs x (h x (List.mem_cons_self x xs))
      fun y hy => h y (List.mem_cons_of_mem x hy)

theorem valid_bounds_isSome (latF lonF red : Arr F)
    (hne : valid_pts latF lonF red ≠ [])
    (hfin : ∀ t ∈ valid_pts latF lonF red, t.1.isSome ∧ t.2.1.isSome) :
    ∃ b, valid_bounds latF lonF red = some b := by
  have h1 : (FminL ((valid_pts latF lonF red).map fun t => t.1)).isSome :=
    FminL_isSome _ (by simpa using hne)
      (by rintro x hx; obtain ⟨t, ht, rfl⟩ := List.mem_map.1 hx; exact (hfin t ht).1)
  have h2 : (FmaxL ((valid_pts latF lonF red).map fun t => t.1)).isSome :=
    FmaxL_isSome _ (by simpa using hne)
      (by rintro x hx; obtain ⟨t, ht, rfl⟩ := List.mem_map.1 hx; exact (hfin t ht).1)
  have h3 : (FminL ((valid_pts latF lonF red).map fun t => t.2.1)).isSome :=
    FminL_isSome _ (by simpa using hne)
      (by rintro x hx; obtain ⟨t, ht, rfl⟩ := List.mem_map.1 hx; exact (hfin t ht).2)
  have h4 : (FmaxL ((valid_pts latF lonF red).map fun t => t.2.1)).isSome :=
    FmaxL_isSome _ (by simpa using hne)
      (by rintro x hx; obtain ⟨t, ht, rfl⟩ := List.mem_map.1 hx; exact (hfin t ht).2)
  obtain ⟨a, ha⟩ := Option.isSome_iff_exists.mp h1
  obtain ⟨b, hb⟩ := Option.isSome_iff_exists.mp h2
  obtain ⟨c, hc⟩ := Option.isSome_iff_exists.mp h3
  obtain ⟨d, hd⟩ := Option.isSome_iff_exists.mp h4
  exact ⟨(a, b, c, d), by rw [valid_bounds, ha, hb, hc, hd]⟩

theorem valid_pts_empty_iff (latF lonF red : Arr F)
    (hl1 : latF.flat.length = red.flat.length)
    (hl2 : lonF.flat.length = red.flat.length) :
    valid_pts latF lonF red = [] ↔ ∀ v ∈ red.flat, v = none := by
  unfold valid_pts
  exact valid_pts_nil_iff latF.flat lonF.flat red.flat hl1 hl2

theorem reproject_unfold (cosd : ℚ → ℚ)
    (gd : List (ℚ × ℚ) → List ℚ → List (ℚ × ℚ) → List F)
    (latF lonF red : Arr F) (b : ℚ × ℚ × ℚ × ℚ)
    (hpts : ¬(valid_pts latF lonF red).length = 0)
    (hvb : valid_bounds latF lonF red = some b) :
    reproject_to_wgs84 cosd gd latF lonF red =
      if (gd_output cosd gd latF lonF red).all (fun v => v.isNone)
      then Except.ok none
      else Except.ok (some ⟨(reproj_axes cosd b).1, (reproj_axes cosd b).2,
        ⟨(reproj_axes cosd b).1.length, (reproj_axes cosd b).2.length,
          gd_output cosd gd latF lonF red⟩⟩) := by
  rw [reproject_to_wgs84, if_neg hpts, hvb, gd_output, hvb]

theorem arangeQ_length (s t step : ℚ) :
    (arangeQ s t step).length = Int.toNat ⌈(t - s) / step⌉ := by
  rw [arangeQ, List.length_map, List.length_range]

theorem list_product_length {α β : Type} (l₁ : List α) (l₂ : List β) :
    (l₁.product l₂).length = l₁.length * l₂.length :=
  List.length_product l₁ l₂

theorem linspaceQ_length (s t : ℚ) (n : ℕ) : (linspaceQ s t n).length = n := by
  rw [linspaceQ, List.length_map, List.length_range]

theorem arangeQ_chain (s t step : ℚ) (h : 0 < step) :
    (arangeQ s t step).Chain' (· < ·) := by
  rw [List.chain'_iff_get]
  intro i hi
  rw [List.get_eq_getElem, List.get_eq_getElem]
  simp only [arangeQ, List.getElem_map, List.getElem_range]
  have hcast : (i : ℚ) < ((i + 1 : ℕ) : ℚ) := by
    push_cast
    linarith
  have := mul_lt_mul_of_pos_right hcast h
  linarith

theorem linspaceQ_getElem (start stop : ℚ) (num k : ℕ) (h2 : 2 ≤ num)
    (hk : k < (linspaceQ start stop num).length) :
    (linspaceQ start stop num)[k] =
      start + (stop - start) * ((k : ℚ) / ((num : ℚ) - 1)) := by
  have hk2 : k < num := by
    rw [linspaceQ_length] at hk
    exact hk
  simp only [linspaceQ, List.getElem_map, List.getElem_range]
  have hn1 : ¬(num ≤ 1) := by omega
  rw [if_neg hn1]
  by_cases hlast : k = num - 1
  · rw [if_pos hlast, hlast]
    have hge : (2 : ℚ) ≤ (num : ℚ) := by exact_mod_cast h2
    have hne : ((num : ℚ) - 1) ≠ 0 := by linarith
    have hcast : ((num - 1 : ℕ) : ℚ) = (num : ℚ) - 1 := by
      rw [Nat.cast_sub (by omega : 1 ≤ num)]
      norm_num
    rw [hcast, div_self hne]
    ring
  · rw [if_neg hlast]

theorem linspaceQ_chain_lt (start stop : ℚ) (num : ℕ) (h : start < stop) :
    (linspaceQ start stop num).Chain' (· < ·) := by
  rcases Nat.lt_or_ge num 2 with h2 | h2
  · interval_cases num
    · simp [linspaceQ]
    · simp [linspaceQ, show List.range 1 = [0] from rfl]
  · rw [List.chain'_iff_get]
    intro i hi
    have hlen : (linspaceQ start stop num).length = num := linspaceQ_length _ _ _
    rw [List.get_eq_getElem, List.get_eq_getElem,
      linspaceQ_getElem _ _ _ _ h2 (by omega), linspaceQ_getElem _ _ _ _ h2 (by omega)]
    have hd : 0 < stop - start := by linarith
    have hge : (2 : ℚ) ≤ (num : ℚ) := by exact_mod_cast h2
    have hn : (0 : ℚ) < (num : ℚ) - 1 := by linarith
    have hlt : (i : ℚ) / ((num : ℚ) - 1) < ((i + 1 : ℕ) : ℚ) / ((num : ℚ) - 1) := by
      rw [div_lt_div_iff_of_pos_right hn]
      push_cast
      linarith
    have := mul_lt_mul_of_pos_left hlt hd
    linarith

theorem linspaceQ_chain_gt (start stop : ℚ) (num : ℕ) (h : stop < start) :
    (linspaceQ start stop num).Chain' (· > ·) := by
  rcases Nat.lt_or_ge num 2 with h2 | h2
  · interval_cases num
    · simp [linspaceQ]
    · simp [linspaceQ, show List.range 1 = [0] from rfl]
  · rw [List.chain'_iff_get]
    intro i hi
    have hlen : (linspaceQ start stop num).length = num := linspaceQ_length _ _ _
    rw [List.get_eq_getElem, List.get_eq_getElem,
      linspaceQ_getElem _ _ _ _ h2 (by omega), linspaceQ_getElem _ _ _ _ h2 (by omega)]
    have hd : stop - start < 0 := by linarith
    have hge : (2 : ℚ) ≤ (num : ℚ) := by exact_mod_cast h2
    have hn : (0 : ℚ) < (num : ℚ) - 1 := by linarith
    have hlt : (i : ℚ) / ((num : ℚ) - 1) < ((i + 1 : ℕ) : ℚ) / ((num : ℚ) - 1) := by
      rw [div_lt_div_iff_of_pos_right hn]
      push_cast
      linarith
    have := mul_lt_mul_of_neg_left hlt hd
    show _ > _
    linarith

/- ===== concrete fixtures for witnesses ===== -/

/-- A concrete configuration with every optional stage disabled. -/
def cfg0 : ProcessingConfig := ⟨0, 0, 1, 1, false, false, false, false, false⟩

/-- Concrete trivial library primitives over a unit geometry type. -/
def libs0 : Libs Unit :=
  ⟨fun _ => 1, fun _ _ _ => [], fun gs => Except.ok gs,
   fun _ _ => Except.ok false, fun t _ => ⟨0, 0, [], t⟩⟩

/-- A file whose loader raises immediately. -/
def envFail : FileEnv :=
  ⟨Except.error "boom", Except.ok [], Except.error "x", Except.error "x",
   Except.ok none, Except.error "x", Except.error "x"⟩

/-- Concrete cosine model for witnesses: constant 1. -/
def cosdW : ℚ → ℚ := fun _ => 1

/-- Concrete griddata model for witnesses: constant 7 on the whole output
grid (length equals the output-points length). -/
def gdW7 : List (ℚ × ℚ) → List ℚ → List (ℚ × ℚ) → List F :=
  fun _ _ out => out.map fun _ => some 7

/-- Concrete fine latitude grid with two pixels. -/
def latW3 : Arr F := ⟨1, 2, [some 0, some (1 / 2000)]⟩

/-- Concrete fine longitude grid with two pixels. -/
def lonW3 : Arr F := ⟨1, 2, [some 0, some (1 / 2000)]⟩

/-- Concrete value grid: first pixel NaN, second valid. -/
def redW3 : Arr F := ⟨1, 2, [none, some 7]⟩

/-- The grid reproject_to_wgs84 produces on the witness input: one output
pixel at the single valid point. -/
def gW3 : RGrid := ⟨[1 / 2000], [1 / 2000], ⟨1, 1, [some 7]⟩⟩

theorem reproject_W3 :
    reproject_to_wgs84 cosdW gdW7 latW3 lonW3 redW3 = Except.ok (some gW3) := by
  have hvb : valid_bounds latW3 lonW3 redW3 =
      some (1 / 2000, 1 / 2000, 1 / 2000, 1 / 2000) := rfl
  rw [reproject_unfold cosdW gdW7 latW3 lonW3 redW3 _ (by decide) hvb]
  have hax1 : (reproj_axes cosdW (1 / 2000, 1 / 2000, 1 / 2000, 1 / 2000)).1 = [1 / 2000] := by
    rw [show (reproj_axes cosdW (1 / 2000, 1 / 2000, 1 / 2000, 1 / 2000)).1 =
      arangeQ (1 / 2000) (1 / 2000 + 275 / 111320) (275 / 111320) from rfl, arangeQ]
    have hc : ⌈((1 / 2000 + 275 / 111320 - 1 / 2000) / (275 / 111320) : ℚ)⌉ = 1 := by
      norm_num
    rw [hc]
    show [(1 : ℚ) / 2000 + ((0 : ℕ) : ℚ) * (275 / 111320)] = [1 / 2000]
    norm_num
  have hax2 : (reproj_axes cosdW (1 / 2000, 1 / 2000, 1 / 2000, 1 / 2000)).2 = [1 / 2000] := by
    rw [show (reproj_axes cosdW (1 / 2000, 1 / 2000, 1 / 2000, 1 / 2000)).2 =
      arangeQ (1 / 2000)
        (1 / 2000 + 275 / (111320 * cosdW ((1 / 2000 + 1 / 2000) / 2)))
        (275 / (111320 * cosdW ((1 / 2000 + 1 / 2000) / 2))) from rfl, arangeQ]
    have hc : ⌈((1 / 2000 + 275 / (111320 * cosdW ((1 / 2000 + 1 / 2000) / 2)) - 1 / 2000) /
        (275 / (111320 * cosdW ((1 / 2000 + 1 / 2000) / 2))) : ℚ)⌉ = 1 := by
      norm_num [cosdW]
    rw [hc]
    show [(1 : ℚ) / 2000 + ((0 : ℕ) : ℚ) *
      (275 / (111320 * cosdW ((1 / 2000 + 1 / 2000) / 2)))] = [1 / 2000]
    norm_num [cosdW]
  have hgdout : gd_output cosdW gdW7 latW3 lonW3 redW3 = [some 7] := by
    rw [gd_output, hvb]
    show (((reproj_axes cosdW (1 / 2000, 1 / 2000, 1 / 2000, 1 / 2000)).1.product
      (reproj_axes cosdW (1 / 2000, 1 / 2000, 1 / 2000, 1 / 2000)).2).map
        fun _ => (some 7 : F)) = [some 7]
    rw [hax1, hax2]
    rfl
  rw [hgdout, hax1, hax2]
  rfl

/-- A mask model for clip witnesses: crop to the full extent, keeping the
source geotransform (as rasterio mask with crop=True does when the
polygons cover the raster). -/
def maskCW : GeoTransform → Arr F → MaskResult :=
  fun t _ => ⟨2, 2, [some 2, some 2, some 2, some 2], t⟩

/-- A concrete 2 x 2 dataset for the clip witness. -/
def dataA4 : Arr F := ⟨2, 2, [some 2, some 2, some 2, some 2]⟩

/-- The grid clip_xarray_dataset produces on the witness input: note the
descending latitude axis. -/
def gC4 : RGrid := ⟨[4, 0], [0, 4], ⟨2, 2, [some 2, some 2, some 2, some 2]⟩⟩

theorem clip_W4 :
    clip_xarray_dataset maskCW [0, 4] [0, 4] dataA4 = Except.ok gC4 := by
  have hmin : minD [(0 : ℚ), 4] = 0 := by norm_num [minD, min_def]
  have hmax : maxD [(0 : ℚ), 4] = 4 := by norm_num [maxD, max_def]
  rw [clip_xarray_dataset, hmin, hmax]
  simp only [from_bounds, maskCW]
  norm_num [linspaceQ, show List.range 2 = [0, 1] from rfl, gC4, dataA4]

/- ===== claims ===== -/

/-- Claim C1: process_batch returns exactly one ProcessingResult per input
path, in input order; a pipeline fault on a file yields a failed result
with a populated error message for that file, and every file still gets a
result (no exception escapes: process_batch is a total function). -/
theorem c1_batch_isolates_failures {G : Type} (cfg : ProcessingConfig)
    (libs : Libs G) (geoms : Option (List G)) (envOf : String → FileEnv)
    (fps : List String) :
    (process_batch cfg libs geoms envOf fps).length = fps.length ∧
    ∀ i fp, fps.get? i = some fp →
      ∃ r, (process_batch cfg libs geoms envOf fps).get? i = some r ∧
        r.input_file = fp ∧
        (∀ e, runPipeline cfg libs geoms (envOf fp) = Except.error e →
          r.success = false ∧
          r.error_message = some ("Processing failed: " ++ e)) ∧
        (∀ out, runPipeline cfg libs geoms (envOf fp) = Except.ok out →
          r.success = true ∧ r.error_message = none ∧
          r.output_files = out.1) := by
  constructor
  · exact List.length_map _ _
  · intro i fp hfp
    refine ⟨process_single_file cfg libs geoms (envOf fp) fp, ?_, ?_, ?_, ?_⟩
    · rw [process_batch, List.get?_map, hfp]
      rfl
    · cases h : runPipeline cfg libs geoms (envOf fp) <;>
        simp [process_single_file, h]
    · intro e he
      simp [process_single_file, he]
    · intro out hout
      simp [process_single_file, hout]

/-- Witness for C1: a two-file batch where both loaders raise yields two
results, and the second result records the failure with its message. -/
theorem c1_witness :
    (process_batch cfg0 libs0 none (fun _ => envFail) ["a", "b"]).length = 2 ∧
    ∃ r, (process_batch cfg0 libs0 none (fun _ => envFail) ["a", "b"]).get? 1 =
        some r ∧ r.input_file = "b" ∧ r.success = false ∧
        r.error_message = some "Processing failed: boom" := by
  have h := c1_batch_isolates_failures cfg0 libs0 none (fun _ => envFail) ["a", "b"]
  obtain ⟨r, hr, hfile, hfail, _⟩ := h.2 1 "b" rfl
  have hb : runPipeline cfg0 libs0 (none : Option (List Unit)) envFail =
      Except.error "boom" := rfl
  exact ⟨h.1, r, hr, hfile, (hfail "boom" hb).1, (hfail "boom" hb).2⟩

/-- Claim C8: with zero enabled flags, create_quality_mask returns an
all-True mask of the same shape as the input array. -/
theorem c8_empty_filters_all_valid (custom : List (String × FlagDef))
    (qa : Arr ℕ) :
    (create_quality_mask [] custom qa).rows = qa.rows ∧
    (create_quality_mask [] custom qa).cols = qa.cols ∧
    (create_quality_mask [] custom qa).flat.length = qa.flat.length ∧
    ∀ b ∈ (create_quality_mask [] custom qa).flat, b = true := by
  have hflat : (create_quality_mask [] custom qa).flat =
      qa.flat.map fun _ => true := rfl
  refine ⟨rfl, rfl, by simp [hflat], ?_⟩
  intro b hb
  rw [hflat] at hb
  obtain ⟨q, _, rfl⟩ := List.mem_map.1 hb
  rfl

/-- Claim C9: with the single enabled flag on bit 0 and valid set 0 (the
catalog entry cloud_detected), an all-odd quality array yields an
all-False mask and an all-even quality array an all-True mask. -/
theorem c9_bit0_parity_mask (qa : Arr ℕ) :
    ((∀ q ∈ qa.flat, Odd q) →
      ∀ b ∈ (create_quality_mask ["cloud_detected"] [] qa).flat, b = false) ∧
    ((∀ q ∈ qa.flat, Even q) →
      ∀ b ∈ (create_quality_mask ["cloud_detected"] [] qa).flat, b = true) := by
  have hflat : (create_quality_mask ["cloud_detected"] [] qa).flat =
      qa.flat.map (fun q => decide (q % 2 = 0)) := by
    show List.zipWith _ (qa.flat.map fun _ => true) qa.flat = _
    rw [zipWith_and_map_true]
    refine List.map_congr_left fun q _ => ?_
    simp [flagMask, extract_bit_values, Nat.shiftRight_zero, Nat.and_one_is_mod]
  constructor
  · intro h b hb
    rw [hflat] at hb
    obtain ⟨q, hq, rfl⟩ := List.mem_map.1 hb
    simp [Nat.odd_iff.mp (h q hq)]
  · intro h b hb
    rw [hflat] at hb
    obtain ⟨q, hq, rfl⟩ := List.mem_map.1 hb
    simp [Nat.even_iff.mp (h q hq)]

/-- Witness for C9: the all-odd array (1, 3) maps to all-False; the
all-even array (0, 4) maps to all-True. -/
theorem c9_witness :
    (∀ b ∈ (create_quality_mask ["cloud_detected"] [] ⟨1, 2, [1, 3]⟩).flat,
      b = false) ∧
    (∀ b ∈ (create_quality_mask ["cloud_detected"] [] ⟨1, 2, [0, 4]⟩).flat,
      b = true) :=
  ⟨(c9_bit0_parity_mask ⟨1, 2, [1, 3]⟩).1 (by decide),
   (c9_bit0_parity_mask ⟨1, 2, [0, 4]⟩).2 (by decide)⟩

/-- Claim C6: apply_qa_filter is fail-open on shape mismatch: equal shapes
filter directly; unequal shapes with equal element counts reshape the QA
array (keeping its flat contents) and filter; unequal element counts
return the data unchanged.  The filtering step itself sets exactly the
pixels whose mask entry is False to NaN and keeps every other pixel. -/
theorem c6_apply_filter_fail_open (enabled : List String)
    (custom : List (String × FlagDef)) (data : Arr F) (qa : Arr ℕ) :
    (qa.rows = data.rows ∧ qa.cols = data.cols →
      apply_qa_filter enabled custom data qa = applyMask enabled custom data qa) ∧
    (¬(qa.rows = data.rows ∧ qa.cols = data.cols) →
      qa.flat.length = data.flat.length →
      apply_qa_filter enabled custom data qa =
        applyMask enabled custom data ⟨data.rows, data.cols, qa.flat⟩) ∧
    (¬(qa.rows = data.rows ∧ qa.cols = data.cols) →
      qa.flat.length ≠ data.flat.length →
      apply_qa_filter enabled custom data qa = data) ∧
    (∀ qa2 : Arr ℕ, qa2.flat.length = data.flat.length →
      (applyMask enabled custom data qa2).rows = data.rows ∧
      (applyMask enabled custom data qa2).cols = data.cols ∧
      ∀ k, k < data.flat.length →
        (applyMask enabled custom data qa2).flat.getD k none =
          if (create_quality_mask enabled custom qa2).flat.getD k false
          then data.flat.getD k none else none) := by
  refine ⟨?_, ?_, ?_, ?_⟩
  · intro h
    rw [apply_qa_filter, if_pos h]
  · intro h hlen
    rw [apply_qa_filter, if_neg h, if_pos hlen]
  · intro h hlen
    rw [apply_qa_filter, if_neg h, if_neg hlen]
  · intro qa2 hlen
    refine ⟨rfl, rfl, ?_⟩
    intro k hk
    exact getD_zipWith_mask data.flat _ k hk
      (by rw [create_quality_mask_length, hlen])

/-- Witness for C6: the three branches at concrete arrays, plus one
filtered pixel. -/
theorem c6_witness :
    (apply_qa_filter ["cloud_detected"] [] ⟨1, 2, [some 1, some 2]⟩ ⟨1, 2, [1, 0]⟩ =
      applyMask ["cloud_detected"] [] ⟨1, 2, [some 1, some 2]⟩ ⟨1, 2, [1, 0]⟩) ∧
    (apply_qa_filter ["cloud_detected"] [] ⟨1, 2, [some 1, some 2]⟩ ⟨2, 1, [1, 0]⟩ =
      applyMask ["cloud_detected"] [] ⟨1, 2, [some 1, some 2]⟩ ⟨1, 2, [1, 0]⟩) ∧
    (apply_qa_filter ["cloud_detected"] [] ⟨1, 2, [some 1, some 2]⟩ ⟨1, 3, [1, 0, 7]⟩ =
      ⟨1, 2, [some 1, some 2]⟩) ∧
    (applyMask ["cloud_detected"] [] ⟨1, 2, [some 1, some 2]⟩ ⟨1, 2, [1, 0]⟩).flat.getD 0 none =
      (if (create_quality_mask ["cloud_detected"] [] (⟨1, 2, [1, 0]⟩ : Arr ℕ)).flat.getD 0 false
       then (⟨1, 2, [some 1, some 2]⟩ : Arr F).flat.getD 0 none else none) := by
  refine ⟨(c6_apply_filter_fail_open ["cloud_detected"] [] ⟨1, 2, [some 1, some 2]⟩
      ⟨1, 2, [1, 0]⟩).1 ⟨rfl, rfl⟩,
    (c6_apply_filter_fail_open ["cloud_detected"] [] ⟨1, 2, [some 1, some 2]⟩
      ⟨2, 1, [1, 0]⟩).2.1 (by decide) rfl,
    (c6_apply_filter_fail_open ["cloud_detected"] [] ⟨1, 2, [some 1, some 2]⟩
      ⟨1, 3, [1, 0, 7]⟩).2.2.1 (by decide) (by decide),
    ((c6_apply_filter_fail_open ["cloud_detected"] [] ⟨1, 2, [some 1, some 2]⟩
      ⟨1, 2, [1, 0]⟩).2.2.2 ⟨1, 2, [1, 0]⟩ rfl).2.2 0 (by decide)⟩

/-- Claim C5 (counterexample): create_fine_grid does not interpolate
between all four corners: the fine latitude at the top-right pixel equals
the top-LEFT coarse corner latitude, not the top-right one.  With coarse
lat [[0, 1], [2, 3]] the fine lat grid is [[0, 0], [3, 3]], so the (0, 1)
corner holds 0 while the coarse (0, 1) corner holds 1. -/
theorem c5_counterexample :
    (create_fine_grid ⟨2, 2, [some 0, some 1, some 2, some 3]⟩
        ⟨2, 2, [some 0, some 1, some 0, some 1]⟩
        ⟨2, 2, [some 5, some 5, some 5, some 5]⟩).1.get 0 1 ≠
      (⟨2, 2, [some 0, some 1, some 2, some 3]⟩ : Arr F).get 0 1 := by
  have h1 : (create_fine_grid ⟨2, 2, [some 0, some 1, some 2, some 3]⟩
      ⟨2, 2, [some 0, some 1, some 0, some 1]⟩
      ⟨2, 2, [some 5, some 5, some 5, some 5]⟩).1.get 0 1 = some 0 := by
    rw [(fine_grid_get _ _ _ 0 1 (by norm_num) (by norm_num)).1]
    norm_num [linspaceF, getD_map_range, Fadd, Fsub, Fmul, Arr.get]
  rw [h1]
  norm_num [Arr.get]

/-- Claim C5 (amended): the fine grids have exactly the value-array shape;
the fine latitude varies only with the row index along
linspace(lat[0,0], lat[-1,-1]) and the fine longitude only with the column
index along linspace(lon[0,0], lon[-1,-1]); hence only the (0,0) corner
and the (last,last) corner of each coordinate grid are preserved (the
(0,0) corner whenever both interpolation endpoints are finite, the
(last,last) corner whenever the grid has at least two rows and columns),
not the other two corners. -/
theorem c5_fine_grid_amended (latS lonS red : Arr F) :
    ((create_fine_grid latS lonS red).1.rows = red.rows ∧
     (create_fine_grid latS lonS red).1.cols = red.cols ∧
     (create_fine_grid latS lonS red).2.rows = red.rows ∧
     (create_fine_grid latS lonS red).2.cols = red.cols ∧
     (create_fine_grid latS lonS red).1.flat.length = red.rows * red.cols ∧
     (create_fine_grid latS lonS red).2.flat.length = red.rows * red.cols) ∧
    (∀ i j, i < red.rows → j < red.cols →
      (create_fine_grid latS lonS red).1.get i j =
        (linspaceF (latS.get 0 0) (latS.get (latS.rows - 1) (latS.cols - 1))
          red.rows).getD i none ∧
      (create_fine_grid latS lonS red).2.get i j =
        (linspaceF (lonS.get 0 0) (lonS.get (lonS.rows - 1) (lonS.cols - 1))
          red.cols).getD j none) ∧
    (1 ≤ red.rows → 1 ≤ red.cols →
      (latS.get 0 0).isSome →
      (latS.get (latS.rows - 1) (latS.cols - 1)).isSome →
      (lonS.get 0 0).isSome →
      (lonS.get (lonS.rows - 1) (lonS.cols - 1)).isSome →
      (create_fine_grid latS lonS red).1.get 0 0 = latS.get 0 0 ∧
      (create_fine_grid latS lonS red).2.get 0 0 = lonS.get 0 0) ∧
    (2 ≤ red.rows → 2 ≤ red.cols →
      (create_fine_grid latS lonS red).1.get (red.rows - 1) (red.cols - 1) =
        latS.get (latS.rows - 1) (latS.cols - 1) ∧
      (create_fine_grid latS lonS red).2.get (red.rows - 1) (red.cols - 1) =
        lonS.get (lonS.rows - 1) (lonS.cols - 1)) := by
  refine ⟨⟨rfl, rfl, rfl, rfl, by simp [create_fine_grid], by simp [create_fine_grid]⟩,
    fine_grid_get latS lonS red, ?_, ?_⟩
  · intro hr hc hs1 hs2 hs3 hs4
    have h := fine_grid_get latS lonS red 0 0 (by omega) (by omega)
    exact ⟨h.1.trans (linspaceF_head _ _ _ hr hs1 hs2),
           h.2.trans (linspaceF_head _ _ _ hc hs3 hs4)⟩
  · intro hr hc
    have h := fine_grid_get latS lonS red (red.rows - 1) (red.cols - 1)
      (by omega) (by omega)
    exact ⟨h.1.trans (linspaceF_last _ _ _ hr),
           h.2.trans (linspaceF_last _ _ _ hc)⟩

/-- Witness for C5 (amended): the preserved corners at a concrete input. -/
theorem c5_witness :
    ((create_fine_grid ⟨2, 2, [some 0, some 1, some 2, some 3]⟩
        ⟨2, 2, [some 0, some 1, some 0, some 1]⟩
        ⟨2, 2, [some 5, some 5, some 5, some 5]⟩).1.get 0 0 =
      (⟨2, 2, [some 0, some 1, some 2, some 3]⟩ : Arr F).get 0 0) ∧
    ((create_fine_grid ⟨2, 2, [some 0, some 1, some 2, some 3]⟩
        ⟨2, 2, [some 0, some 1, some 0, some 1]⟩
        ⟨2, 2, [some 5, some 5, some 5, some 5]⟩).1.get 1 1 =
      (⟨2, 2, [some 0, some 1, some 2, some 3]⟩ : Arr F).get 1 1) := by
  have h := c5_fine_grid_amended ⟨2, 2, [some 0, some 1, some 2, some 3]⟩
    ⟨2, 2, [some 0, some 1, some 0, some 1]⟩
    ⟨2, 2, [some 5, some 5, some 5, some 5]⟩
  exact ⟨(h.2.2.1 (by decide) (by decide) (by decide) (by decide) (by decide)
      (by decide)).1,
    (h.2.2.2 (by decide) (by decide)).1⟩

/-- Claim C7: when the external reprojection succeeds and each external
intersects call decides whether the geometry shares a point with the
dataset bounding box, check_overlap returns true exactly when some loaded
polygon shares a point with the box; and whenever the internal computation
raises, check_overlap returns true (fail-open). -/
theorem c7_check_overlap_sem {G : Type}
    (reprojGeoms : List G → Except String (List G))
    (intersects : G → BoxQ → Except String Bool) (pts : G → ℚ × ℚ → Prop) :
    (∀ (gs : List G) (lats lons : List ℚ),
      reprojGeoms gs = Except.ok gs →
      (∀ g ∈ gs, ∃ b, intersects g (datasetBox lats lons) = Except.ok b ∧
        (b = true ↔ ∃ p, pts g p ∧ inBoxQ (datasetBox lats lons) p)) →
      (check_overlap reprojGeoms intersects (some gs) lats lons = true ↔
        ∃ g ∈ gs, ∃ p, pts g p ∧ inBoxQ (datasetBox lats lons) p)) ∧
    (∀ (gs : List G) (lats lons : List ℚ) (e : String),
      (do
        let gs2 ← reprojGeoms gs
        anyIntersects intersects gs2 (datasetBox lats lons) :
          Except String Bool) = Except.error e →
      check_overlap reprojGeoms intersects (some gs) lats lons = true) := by
  constructor
  · intro gs lats lons hrep hint
    obtain ⟨r, hr, hsem⟩ := anyIntersects_sem intersects (datasetBox lats lons)
      (fun g => ∃ p, pts g p ∧ inBoxQ (datasetBox lats lons) p) gs hint
    have hrun : (do
        let gs2 ← reprojGeoms gs
        anyIntersects intersects gs2 (datasetBox lats lons) :
          Except String Bool) = Except.ok r := by
      rw [hrep]
      exact hr
    rw [check_overlap, hrun]
    exact hsem
  · intro gs lats lons e he
    rw [check_overlap, he]

/-- Witness for C7: one unit-square polygon against the unit-square
dataset box, with a decidable rectangle-intersection primitive. -/
theorem c7_witness :
    check_overlap (fun gs : List BoxQ => Except.ok gs)
      (fun g b => Except.ok (decide (g.minx ≤ b.maxx ∧ b.minx ≤ g.maxx ∧
        g.miny ≤ b.maxy ∧ b.miny ≤ g.maxy)))
      (some [⟨0, 0, 1, 1⟩]) [0, 1] [0, 1] = true ↔
      ∃ g ∈ [(⟨0, 0, 1, 1⟩ : BoxQ)], ∃ p, inBoxQ g p ∧
        inBoxQ (datasetBox [0, 1] [0, 1]) p := by
  apply (c7_check_overlap_sem (fun gs : List BoxQ => Except.ok gs)
    (fun g b => Except.ok (decide (g.minx ≤ b.maxx ∧ b.minx ≤ g.maxx ∧
      g.miny ≤ b.maxy ∧ b.miny ≤ g.maxy))) inBoxQ).1
  · rfl
  · intro g hg
    have hgeq : g = ⟨0, 0, 1, 1⟩ := by simpa using hg
    subst hgeq
    have hbox : datasetBox [0, 1] [0, 1] = ⟨0, 0, 1, 1⟩ := by
      norm_num [datasetBox, minD, maxD]
    refine ⟨true, ?_, ?_⟩
    · rw [hbox]
      norm_num [inBoxQ]
    · rw [hbox]
      constructor
      · intro _
        exact ⟨(0, 0), by norm_num [inBoxQ], by norm_num [inBoxQ]⟩
      · intro _
        rfl

/-- Claim C4: find_region_bounds returns nothing exactly when no cell has
both coordinates within margin of the target in absolute value; otherwise
it returns the (min row, max row, min col, max col) rectangle over the
qualifying cells (every qualifying cell lies inside it and each of the
four bounds is attained by a qualifying cell); in particular a margin
covering the whole grid yields the full extent and a target beyond the
margin from every latitude yields nothing. -/
theorem c4_find_region_bounds (latg long : Arr F) (tla tlo m : ℚ) :
    (find_region_bounds latg long tla tlo m = none ↔
      ∀ i j, i < latg.rows → j < latg.cols →
        ¬specQualifies latg long tla tlo m i j) ∧
    (∀ a b c d, find_region_bounds latg long tla tlo m = some (a, b, c, d) →
      (∀ i j, i < latg.rows → j < latg.cols →
        specQualifies latg long tla tlo m i j →
        a ≤ i ∧ i ≤ b ∧ c ≤ j ∧ j ≤ d) ∧
      (∃ i j, i < latg.rows ∧ j < latg.cols ∧
        specQualifies latg long tla tlo m i j ∧ i = a) ∧
      (∃ i j, i < latg.rows ∧ j < latg.cols ∧
        specQualifies latg long tla tlo m i j ∧ i = b) ∧
      (∃ i j, i < latg.rows ∧ j < latg.cols ∧
        specQualifies latg long tla tlo m i j ∧ j = c) ∧
      (∃ i j, i < latg.rows ∧ j < latg.cols ∧
        specQualifies latg long tla tlo m i j ∧ j = d)) ∧
    (latg.rows ≠ 0 → latg.cols ≠ 0 →
      (∀ i j, i < latg.rows → j < latg.cols →
        specQualifies latg long tla tlo m i j) →
      find_region_bounds latg long tla tlo m =
        some (0, latg.rows - 1, 0, latg.cols - 1)) ∧
    ((∀ i j la, i < latg.rows → j < latg.cols → latg.get i j = some la →
        m < |la - tla|) →
      find_region_bounds latg long tla tlo m = none) := by
  have hbridge : ∀ i j : ℕ, (i, j) ∈ qualCells latg long tla tlo m ↔
      i < latg.rows ∧ j < latg.cols ∧ specQualifies latg long tla tlo m i j := by
    intro i j
    rw [mem_qualCells, inRegion_iff_spec]
  cases hq : qualCells latg long tla tlo m with
  | nil =>
    have hnone : find_region_bounds latg long tla tlo m = none := by
      rw [find_region_bounds, hq]
    have hno : ∀ i j, i < latg.rows → j < latg.cols →
        ¬specQualifies latg long tla tlo m i j := by
      intro i j hi hj hs
      have hmem : (i, j) ∈ qualCells latg long tla tlo m :=
        (hbridge i j).2 ⟨hi, hj, hs⟩
      rw [hq] at hmem
      exact absurd hmem (List.not_mem_nil _)
    refine ⟨⟨fun _ => hno, fun _ => hnone⟩, ?_, ?_, fun _ => hnone⟩
    · intro a b c d h
      rw [hnone] at h
      cases h
    · intro hr hc hall
      exact absurd (hall 0 0 (by omega) (by omega))
        (hno 0 0 (by omega) (by omega))
  | cons c0 cs =>
    have hfind : find_region_bounds latg long tla tlo m =
        some ((cs.map Prod.fst).foldl min c0.1,
              (cs.map Prod.fst).foldl max c0.1,
              (cs.map Prod.snd).foldl min c0.2,
              (cs.map Prod.snd).foldl max c0.2) := by
      rw [find_region_bounds, hq]
    have hc0 : c0.1 < latg.rows ∧ c0.2 < latg.cols ∧
        specQualifies latg long tla tlo m c0.1 c0.2 := by
      apply (hbridge c0.1 c0.2).1
      rw [Prod.mk.eta, hq]
      exact List.mem_cons_self c0 cs
    have hchar : ∀ a b c d,
        find_region_bounds latg long tla tlo m = some (a, b, c, d) →
        (∀ i j, i < latg.rows → j < latg.cols →
          specQualifies latg long tla tlo m i j →
          a ≤ i ∧ i ≤ b ∧ c ≤ j ∧ j ≤ d) ∧
        (∃ i j, i < latg.rows ∧ j < latg.cols ∧
          specQualifies latg long tla tlo m i j ∧ i = a) ∧
        (∃ i j, i < latg.rows ∧ j < latg.cols ∧
          specQualifies latg long tla tlo m i j ∧ i = b) ∧
        (∃ i j, i < latg.rows ∧ j < latg.cols ∧
          specQualifies latg long tla tlo m i j ∧ j = c) ∧
        (∃ i j, i < latg.rows ∧ j < latg.cols ∧
          specQualifies latg long tla tlo m i j ∧ j = d) := by
      intro a b c d h
      rw [hfind] at h
      simp only [Option.some.injEq, Prod.mk.injEq] at h
      obtain ⟨rfl, rfl, rfl, rfl⟩ := h
      refine ⟨?_, ?_, ?_, ?_, ?_⟩
      · intro i j hi hj hs
        have hmem : (i, j) ∈ qualCells latg long tla tlo m :=
          (hbridge i j).2 ⟨hi, hj, hs⟩
        rw [hq] at hmem
        rcases List.mem_cons.1 hmem with heq | hmem2
        · obtain ⟨h1, h2⟩ := Prod.ext_iff.1 heq
          subst h1
          subst h2
          exact ⟨foldl_min_le_self _ _, le_foldl_max_self _ _,
                 foldl_min_le_self _ _, le_foldl_max_self _ _⟩
        · have h1 : i ∈ cs.map Prod.fst := List.mem_map_of_mem Prod.fst hmem2
          have h2 : j ∈ cs.map Prod.snd := List.mem_map_of_mem Prod.snd hmem2
          exact ⟨foldl_min_le_mem _ _ _ h1, le_foldl_max_mem _ _ _ h1,
                 foldl_min_le_mem _ _ _ h2, le_foldl_max_mem _ _ _ h2⟩
      · rcases foldl_min_mem (cs.map Prod.fst) c0.1 with hA | hA
        · exact ⟨c0.1, c0.2, hc0.1, hc0.2.1, hc0.2.2, hA.symm⟩
        · obtain ⟨p, hp, hpa⟩ := List.mem_map.1 hA
          have hpq := (hbridge p.1 p.2).1
            (by rw [Prod.mk.eta, hq]; exact List.mem_cons_of_mem c0 hp)
          exact ⟨p.1, p.2, hpq.1, hpq.2.1, hpq.2.2, hpa⟩
      · rcases foldl_max_mem (cs.map Prod.fst) c0.1 with hA | hA
        · exact ⟨c0.1, c0.2, hc0.1, hc0.2.1, hc0.2.2, hA.symm⟩
        · obtain ⟨p, hp, hpa⟩ := List.mem_map.1 hA
          have hpq := (hbridge p.1 p.2).1
            (by rw [Prod.mk.eta, hq]; exact List.mem_cons_of_mem c0 hp)
          exact ⟨p.1, p.2, hpq.1, hpq.2.1, hpq.2.2, hpa⟩
      · rcases foldl_min_mem (cs.map Prod.snd) c0.2 with hA | hA
        · exact ⟨c0.1, c0.2, hc0.1, hc0.2.1, hc0.2.2, hA.symm⟩
        · obtain ⟨p, hp, hpa⟩ := List.mem_map.1 hA
          have hpq := (hbridge p.1 p.2).1
            (by rw [Prod.mk.eta, hq]; exact List.mem_cons_of_mem c0 hp)
          exact ⟨p.1, p.2, hpq.1, hpq.2.1, hpq.2.2, hpa⟩
      · rcases foldl_max_mem (cs.map Prod.snd) c0.2 with hA | hA
        · exact ⟨c0.1, c0.2, hc0.1, hc0.2.1, hc0.2.2, hA.symm⟩
        · obtain ⟨p, hp, hpa⟩ := List.mem_map.1 hA
          have hpq := (hbridge p.1 p.2).1
            (by rw [Prod.mk.eta, hq]; exact List.mem_cons_of_mem c0 hp)
          exact ⟨p.1, p.2, hpq.1, hpq.2.1, hpq.2.2, hpa⟩
    refine ⟨?_, hchar, ?_, ?_⟩
    · constructor
      · intro h
        rw [hfind] at h
        cases h
      · intro h
        exact absurd hc0.2.2 (h c0.1 c0.2 hc0.1 hc0.2.1)
    · intro hr hc hall
      obtain ⟨hbounds, _, hattB, _, hattD⟩ := hchar _ _ _ _ hfind
      obtain ⟨hA0, _, hC0, _⟩ :=
        hbounds 0 0 (by omega) (by omega) (hall 0 0 (by omega) (by omega))
      obtain ⟨_, hBlast, _, hDlast⟩ :=
        hbounds (latg.rows - 1) (latg.cols - 1) (by omega) (by omega)
          (hall _ _ (by omega) (by omega))
      obtain ⟨iB, jB, hiB, _, _, hiBeq⟩ := hattB
      obtain ⟨iD, jD, _, hjD, _, hjDeq⟩ := hattD
      rw [hfind]
      simp only [Option.some.injEq, Prod.mk.injEq]
      refine ⟨by omega, by omega, by omega, by omega⟩
    · intro h
      exfalso
      obtain ⟨la, lo, hla, hlo, habs, _⟩ := hc0.2.2
      exact absurd habs (not_le.2 (h c0.1 c0.2 la hc0.1 hc0.2.1 hla))

/-- A concrete 2 x 2 latitude grid for the C4 witness. -/
def latG4 : Arr F := ⟨2, 2, [some 0, some 0, some 1, some 1]⟩

/-- A concrete 2 x 2 longitude grid for the C4 witness. -/
def lonG4 : Arr F := ⟨2, 2, [some 0, some 1, some 0, some 1]⟩

/-- Witness for C4: margin 10 around (0, 0) covers the whole 2 x 2 grid
and yields the full extent; target latitude 100 with margin 1 lies beyond
the margin from every grid latitude and yields nothing; the full-extent
rectangle contains the qualifying cell (0, 0). -/
theorem c4_witness :
    find_region_bounds latG4 lonG4 0 0 10 = some (0, 1, 0, 1) ∧
    find_region_bounds latG4 lonG4 100 0 1 = none ∧
    ((0 : ℕ) ≤ 0 ∧ (0 : ℕ) ≤ 1 ∧ (0 : ℕ) ≤ 0 ∧ (0 : ℕ) ≤ 1) := by
  have hall : ∀ i j, i < latG4.rows → j < latG4.cols →
      specQualifies latG4 lonG4 0 0 10 i j := by
    intro i j hi hj
    have hi2 : i < 2 := hi
    have hj2 : j < 2 := hj
    interval_cases i <;> interval_cases j
    · exact ⟨0, 0, rfl, rfl, by norm_num, by norm_num⟩
    · exact ⟨0, 1, rfl, rfl, by norm_num, by norm_num⟩
    · exact ⟨1, 0, rfl, rfl, by norm_num, by norm_num⟩
    · exact ⟨1, 1, rfl, rfl, by norm_num, by norm_num⟩
  have h1 : find_region_bounds latG4 lonG4 0 0 10 = some (0, 1, 0, 1) :=
    (c4_find_region_bounds latG4 lonG4 0 0 10).2.2.1 (by decide) (by decide) hall
  have hout : ∀ i j la, i < latG4.rows → j < latG4.cols →
      latG4.get i j = some la → (1 : ℚ) < |la - 100| := by
    intro i j la hi hj hla
    have hi2 : i < 2 := hi
    have hj2 : j < 2 := hj
    interval_cases i <;> interval_cases j
    · rw [show latG4.get 0 0 = (some (0 : ℚ) : F) from rfl,
        Option.some.injEq] at hla
      rw [← hla]
      norm_num
    · rw [show latG4.get 0 1 = (some (0 : ℚ) : F) from rfl,
        Option.some.injEq] at hla
      rw [← hla]
      norm_num
    · rw [show latG4.get 1 0 = (some (1 : ℚ) : F) from rfl,
        Option.some.injEq] at hla
      rw [← hla]
      norm_num
    · rw [show latG4.get 1 1 = (some (1 : ℚ) : F) from rfl,
        Option.some.injEq] at hla
      rw [← hla]
      norm_num
  refine ⟨h1, (c4_find_region_bounds latG4 lonG4 100 0 1).2.2.2 hout, ?_⟩
  exact ((c4_find_region_bounds latG4 lonG4 0 0 10).2.1 0 1 0 1 h1).1 0 0
    (by decide) (by decide) ⟨0, 0, rfl, rfl, by norm_num, by norm_num⟩

/-- Claim C3: under matching shapes and finite coordinates at the valid
pixels (as the pipeline provides), reproject_to_wgs84 returns the empty
optional exactly when every input value is NaN or the interpolated grid is
entirely NaN; in every other non-raising case it returns a grid. -/
theorem c3_reproject_empty_cases (cosd : ℚ → ℚ)
    (gd : List (ℚ × ℚ) → List ℚ → List (ℚ × ℚ) → List F)
    (latF lonF red : Arr F)
    (hl1 : latF.flat.length = red.flat.length)
    (hl2 : lonF.flat.length = red.flat.length)
    (hfin : ∀ t ∈ valid_pts latF lonF red, t.1.isSome ∧ t.2.1.isSome) :
    (reproject_to_wgs84 cosd gd latF lonF red = Except.ok none ↔
      (∀ v ∈ red.flat, v = none) ∨
      ∀ v ∈ gd_output cosd gd latF lonF red, v = none) ∧
    ((∃ v ∈ red.flat, v ≠ none) →
      (∃ v ∈ gd_output cosd gd latF lonF red, v ≠ none) →
      ∃ g, reproject_to_wgs84 cosd gd latF lonF red = Except.ok (some g)) := by
  have hempty := valid_pts_empty_iff latF lonF red hl1 hl2
  by_cases hpts : (valid_pts latF lonF red).length = 0
  · have hall : ∀ v ∈ red.flat, v = none :=
      hempty.mp (List.length_eq_zero.mp hpts)
    have hres : reproject_to_wgs84 cosd gd latF lonF red = Except.ok none := by
      rw [reproject_to_wgs84, if_pos hpts]
    refine ⟨⟨fun _ => Or.inl hall, fun _ => hres⟩, ?_⟩
    rintro ⟨v, hv, hvne⟩ _
    exact absurd (hall v hv) hvne
  · have hne : valid_pts latF lonF red ≠ [] := fun h => hpts (by rw [h]; rfl)
    have hnotall : ¬∀ v ∈ red.flat, v = none := fun h => hne (hempty.mpr h)
    obtain ⟨b, hvb⟩ := valid_bounds_isSome latF lonF red hne hfin
    have hunf := reproject_unfold cosd gd latF lonF red b hpts hvb
    by_cases hall : (gd_output cosd gd latF lonF red).all fun v => v.isNone
    · have hres : reproject_to_wgs84 cosd gd latF lonF red = Except.ok none := by
        rw [hunf, if_pos hall]
      have hgdnone : ∀ v ∈ gd_output cosd gd latF lonF red, v = none := by
        intro v hv
        exact Option.isNone_iff_eq_none.mp (List.all_eq_true.mp hall v hv)
      refine ⟨⟨fun _ => Or.inr hgdnone, fun _ => hres⟩, ?_⟩
      rintro _ ⟨v, hv, hvne⟩
      exact absurd (hgdnone v hv) hvne
    · have hres : reproject_to_wgs84 cosd gd latF lonF red =
          Except.ok (some ⟨(reproj_axes cosd b).1, (reproj_axes cosd b).2,
            ⟨(reproj_axes cosd b).1.length, (reproj_axes cosd b).2.length,
              gd_output cosd gd latF lonF red⟩⟩) := by
        rw [hunf, if_neg hall]
      constructor
      · rw [hres]
        simp only [Except.ok.injEq]
        constructor
        · intro h
          cases h
        · rintro (h | h)
          · exact absurd h hnotall
          · exact absurd (List.all_eq_true.mpr fun v hv =>
              Option.isNone_iff_eq_none.mpr (h v hv)) hall
      · intro _ _
        exact ⟨_, hres⟩

/-- Witness for C3: one NaN pixel plus one valid pixel, an interpolator
that fills the grid, so the reprojection returns a grid; the iff holds at
this input. -/
theorem c3_witness :
    (reproject_to_wgs84 cosdW gdW7 latW3 lonW3 redW3 = Except.ok none ↔
      (∀ v ∈ redW3.flat, v = none) ∨
      ∀ v ∈ gd_output cosdW gdW7 latW3 lonW3 redW3, v = none) ∧
    ∃ g, reproject_to_wgs84 cosdW gdW7 latW3 lonW3 redW3 =
      Except.ok (some g) := by
  have h := c3_reproject_empty_cases cosdW gdW7 latW3 lonW3 redW3 rfl rfl
    (by decide)
  have hvb : valid_bounds latW3 lonW3 redW3 =
      some (1 / 2000, 1 / 2000, 1 / 2000, 1 / 2000) := rfl
  have e1 : (reproj_axes cosdW (1 / 2000, 1 / 2000, 1 / 2000, 1 / 2000)).1 =
      arangeQ (1 / 2000) (1 / 2000 + 275 / 111320) (275 / 111320) := rfl
  have e2 : (reproj_axes cosdW (1 / 2000, 1 / 2000, 1 / 2000, 1 / 2000)).2 =
      arangeQ (1 / 2000)
        (1 / 2000 + 275 / (111320 * cosdW ((1 / 2000 + 1 / 2000) / 2)))
        (275 / (111320 * cosdW ((1 / 2000 + 1 / 2000) / 2))) := rfl
  have hc1 : ⌈((1 / 2000 + 275 / 111320 - 1 / 2000) / (275 / 111320) : ℚ)⌉ = 1 := by
    norm_num
  have hc2 : ⌈((1 / 2000 + 275 / (111320 * cosdW ((1 / 2000 + 1 / 2000) / 2)) - 1 / 2000) /
      (275 / (111320 * cosdW ((1 / 2000 + 1 / 2000) / 2))) : ℚ)⌉ = 1 := by
    norm_num [cosdW]
  have hlen1 : (reproj_axes cosdW (1 / 2000, 1 / 2000, 1 / 2000, 1 / 2000)).1.length = 1 := by
    rw [e1, arangeQ_length, hc1]
    rfl
  have hlen2 : (reproj_axes cosdW (1 / 2000, 1 / 2000, 1 / 2000, 1 / 2000)).2.length = 1 := by
    rw [e2, arangeQ_length, hc2]
    rfl
  have hprod : 0 <
      ((reproj_axes cosdW (1 / 2000, 1 / 2000, 1 / 2000, 1 / 2000)).1.product
        (reproj_axes cosdW (1 / 2000, 1 / 2000, 1 / 2000, 1 / 2000)).2).length := by
    rw [list_product_length, hlen1, hlen2]
    omega
  obtain ⟨p, hp⟩ := List.exists_mem_of_length_pos hprod
  have hgdmem : (some 7 : F) ∈ gd_output cosdW gdW7 latW3 lonW3 redW3 := by
    rw [gd_output, hvb]
    show (some 7 : F) ∈
      ((reproj_axes cosdW (1 / 2000, 1 / 2000, 1 / 2000, 1 / 2000)).1.product
        (reproj_axes cosdW (1 / 2000, 1 / 2000, 1 / 2000, 1 / 2000)).2).map
        fun _ => (some 7 : F)
    exact List.mem_map_of_mem (fun _ => some 7) hp
  exact ⟨h.1, h.2 ⟨some 7, by simp [redW3], by simp⟩
    ⟨some 7, hgdmem, by simp⟩⟩

/-- Claim C2 (amended): every grid returned by reproject_to_wgs84 has
strictly ascending 1-D lat and lon axes (ascending lon requires a positive
cosine at the center latitude, true for real latitudes) and a value array
of shape (len lat, len lon); every grid returned by clip_xarray_dataset
has an ascending 1-D lon axis but a DESCENDING 1-D lat axis (the cropped
geotransform keeps the negative north-up row step), with a value array of
shape (len lat, len lon). -/
theorem c2_grid_axes_amended :
    (∀ (cosd : ℚ → ℚ) (gd : List (ℚ × ℚ) → List ℚ → List (ℚ × ℚ) → List F)
      (latF lonF red : Arr F) (g : RGrid),
      (∀ s v o, (gd s v o).length = o.length) →
      (∀ b, valid_bounds latF lonF red = some b →
        0 < cosd ((b.1 + b.2.1) / 2)) →
      reproject_to_wgs84 cosd gd latF lonF red = Except.ok (some g) →
      g.lats.Chain' (· < ·) ∧ g.lons.Chain' (· < ·) ∧
      g.arr.rows = g.lats.length ∧ g.arr.cols = g.lons.length ∧
      g.arr.flat.length = g.lats.length * g.lons.length) ∧
    (∀ (maskC : GeoTransform → Arr F → MaskResult) (lats lons : List ℚ)
      (data : Arr F) (g : RGrid),
      0 < (maskC (from_bounds (minD lons) (minD lats) (maxD lons) (maxD lats)
        data.cols data.rows) data).t.a →
      (maskC (from_bounds (minD lons) (minD lats) (maxD lons) (maxD lats)
        data.cols data.rows) data).t.e < 0 →
      (maskC (from_bounds (minD lons) (minD lats) (maxD lons) (maxD lats)
        data.cols data.rows) data).flat.length =
        (maskC (from_bounds (minD lons) (minD lats) (maxD lons) (maxD lats)
          data.cols data.rows) data).height *
        (maskC (from_bounds (minD lons) (minD lats) (maxD lons) (maxD lats)
          data.cols data.rows) data).width →
      clip_xarray_dataset maskC lats lons data = Except.ok g →
      g.lons.Chain' (· < ·) ∧ g.lats.Chain' (· > ·) ∧
      g.arr.rows = g.lats.length ∧ g.arr.cols = g.lons.length ∧
      g.arr.flat.length = g.lats.length * g.lons.length) := by
  constructor
  · intro cosd gd latF lonF red g hgd hcos hres
    by_cases hpts : (valid_pts latF lonF red).length = 0
    · rw [reproject_to_wgs84, if_pos hpts] at hres
      simp at hres
    · cases hvb : valid_bounds latF lonF red with
      | none =>
        rw [reproject_to_wgs84, if_neg hpts, hvb] at hres
        simp at hres
      | some b =>
        rw [reproject_unfold cosd gd latF lonF red b hpts hvb] at hres
        by_cases hall : (gd_output cosd gd latF lonF red).all fun v => v.isNone
        · rw [if_pos hall] at hres
          simp at hres
        · rw [if_neg hall] at hres
          obtain rfl : g = ⟨(reproj_axes cosd b).1, (reproj_axes cosd b).2,
              ⟨(reproj_axes cosd b).1.length, (reproj_axes cosd b).2.length,
                gd_output cosd gd latF lonF red⟩⟩ :=
            (Option.some.inj (Except.ok.inj hres)).symm
          refine ⟨?_, ?_, rfl, rfl, ?_⟩
          · show (arangeQ b.1 (b.2.1 + 275 / 111320) (275 / 111320)).Chain' (· < ·)
            exact arangeQ_chain _ _ _ (by norm_num)
          · show (arangeQ b.2.2.1
              (b.2.2.2 + 275 / (111320 * cosd ((b.1 + b.2.1) / 2)))
              (275 / (111320 * cosd ((b.1 + b.2.1) / 2)))).Chain' (· < ·)
            exact arangeQ_chain _ _ _
              (div_pos (by norm_num) (mul_pos (by norm_num) (hcos b hvb)))
          · show (gd_output cosd gd latF lonF red).length = _
            rw [gd_output, hvb, hgd, list_product_length]
  · intro maskC lats lons data g ha he hlen hclip
    rw [clip_xarray_dataset] at hclip
    by_cases h0 : (maskC (from_bounds (minD lons) (minD lats) (maxD lons)
        (maxD lats) data.cols data.rows) data).height *
        (maskC (from_bounds (minD lons) (minD lats) (maxD lons) (maxD lats)
          data.cols data.rows) data).width = 0
    · rw [if_pos h0] at hclip
      simp at hclip
    · rw [if_neg h0] at hclip
      obtain rfl := (Except.ok.inj hclip).symm
      have hh : 0 < (maskC (from_bounds (minD lons) (minD lats) (maxD lons)
          (maxD lats) data.cols data.rows) data).height := by
        rcases Nat.eq_zero_or_pos (maskC (from_bounds (minD lons) (minD lats)
          (maxD lons) (maxD lats) data.cols data.rows) data).height with h | h
        · exact absurd (by rw [h, Nat.zero_mul]) h0
        · exact h
      have hw : 0 < (maskC (from_bounds (minD lons) (minD lats) (maxD lons)
          (maxD lats) data.cols data.rows) data).width := by
        rcases Nat.eq_zero_or_pos (maskC (from_bounds (minD lons) (minD lats)
          (maxD lons) (maxD lats) data.cols data.rows) data).width with h | h
        · exact absurd (by rw [h, Nat.mul_zero]) h0
        · exact h
      refine ⟨?_, ?_, ?_, ?_, ?_⟩
      · apply linspaceQ_chain_lt
        have : (0 : ℚ) < (maskC (from_bounds (minD lons) (minD lats) (maxD lons)
            (maxD lats) data.cols data.rows) data).width *
            (maskC (from_bounds (minD lons) (minD lats) (maxD lons) (maxD lats)
              data.cols data.rows) data).t.a := by
          apply mul_pos _ ha
          exact_mod_cast hw
        linarith
      · apply linspaceQ_chain_gt
        have : (maskC (from_bounds (minD lons) (minD lats) (maxD lons)
            (maxD lats) data.cols data.rows) data).height *
            (maskC (from_bounds (minD lons) (minD lats) (maxD lons) (maxD lats)
              data.cols data.rows) data).t.e < 0 := by
          apply mul_neg_of_pos_of_neg _ he
          exact_mod_cast hh
        linarith
      · show _ = (linspaceQ _ _ _).length
        rw [linspaceQ_length]
      · show _ = (linspaceQ _ _ _).length
        rw [linspaceQ_length]
      · show _ = (linspaceQ _ _ _).length * (linspaceQ _ _ _).length
        rw [linspaceQ_length, linspaceQ_length]
        exact hlen

/-- Claim C2 (counterexample): a clip over a north-up raster (row step
negative, as from_bounds always produces for a non-degenerate extent, and
as rasterio mask preserves) yields a DESCENDING latitude axis [10, 0],
refuting the ascending-latitude invariant for clip outputs. -/
theorem c2_counterexample :
    clip_xarray_dataset (fun t _ => ⟨2, 2, [some 1, some 1, some 1, some 1], t⟩)
      [0, 10] [0, 10] ⟨2, 2, [some 1, some 1, some 1, some 1]⟩ =
      Except.ok ⟨[10, 0], [0, 10], ⟨2, 2, [some 1, some 1, some 1, some 1]⟩⟩ ∧
    ¬ ([10, 0] : List ℚ).Chain' (· < ·) := by
  constructor
  · have hmin : minD [(0 : ℚ), 10] = 0 := by norm_num [minD, min_def]
    have hmax : maxD [(0 : ℚ), 10] = 10 := by norm_num [maxD, max_def]
    rw [clip_xarray_dataset, hmin, hmax]
    simp only [from_bounds]
    norm_num [linspaceQ, show List.range 2 = [0, 1] from rfl]
  · rw [List.chain'_pair]
    norm_num

/-- Witness for C2 (amended): the reprojection witness grid has ascending
axes and matching shape; the clip witness grid has ascending lon,
descending lat, and matching shape. -/
theorem c2_witness :
    (gW3.lats.Chain' (· < ·) ∧ gW3.lons.Chain' (· < ·) ∧
     gW3.arr.rows = gW3.lats.length ∧ gW3.arr.cols = gW3.lons.length ∧
     gW3.arr.flat.length = gW3.lats.length * gW3.lons.length) ∧
    (gC4.lons.Chain' (· < ·) ∧ gC4.lats.Chain' (· > ·) ∧
     gC4.arr.rows = gC4.lats.length ∧ gC4.arr.cols = gC4.lons.length ∧
     gC4.arr.flat.length = gC4.lats.length * gC4.lons.length) := by
  constructor
  · exact c2_grid_axes_amended.1 cosdW gdW7 latW3 lonW3 redW3 gW3
      (fun s v o => by simp [gdW7]) (fun b _ => by norm_num [cosdW])
      reproject_W3
  · refine c2_grid_axes_amended.2 maskCW [0, 4] [0, 4] dataA4 gC4 ?_ ?_ ?_ clip_W4
    · norm_num [maskCW, from_bounds, minD, maxD, min_def, max_def, dataA4]
    · norm_num [maskCW, from_bounds, minD, maxD, min_def, max_def, dataA4]
    · rfl

/-- Claim C10: with no loaded geometries, check_overlap returns false for
every input grid, unlike the fail-open true of internal failures. -/
theorem c10_no_geometries_no_overlap (G : Type)
    (reprojGeoms : List G → Except String (List G))
    (intersects : G → BoxQ → Except String Bool) (lats lons : List ℚ) :
    check_overlap reprojGeoms intersects none lats lons = false := rfl

end Misr
